import Mathlib

/-!
Verification of the morTimmy hardware-controller protocol
(`src/raspberrypi/morTimmy/hardware_controller.py`).

The Python module implements a PPP-style framing layer over a serial byte
stream: a fixed 18-byte message record (`struct '<LLBBLL'`, little-endian)
carrying a CRC-32 checksum, byte-stuffing with a frame delimiter 0x0C and
escape byte 0x1B, and a byte-at-a-time receive state machine feeding a
delivery queue.

Bytes are modelled as `Nat` values below 256, byte strings as `List Nat`.
Machine-width arithmetic is explicit (`% 256`, `% 2^32`, `&&& 0xFFFFFFFF`)
exactly where the source performs it.  The `zlib.crc32` function is embedded
as the standard reflected CRC-32 (polynomial 0xEDB88320, initial value
0xFFFFFFFF, final xor 0xFFFFFFFF) computed bit by bit.
-/

/-- Frame delimiter `FRAME_FLAG = 0x0C` from the source. -/
def FRAME_FLAG : Nat := 0x0C

/-- Frame escape byte `FRAME_ESC = 0x1B` from the source. -/
def FRAME_ESC : Nat := 0x1B

/-- Module constant `MODULE_MOTOR = 0x32` from the source. -/
def MODULE_MOTOR : Nat := 0x32

/-- Command constant `CMD_MOTOR_FORWARD = 0x64` from the source. -/
def CMD_MOTOR_FORWARD : Nat := 0x64

/-! ## CRC-32 (`zlib.crc32`) -/

/-- Reflected CRC-32 polynomial used by `zlib.crc32`. -/
def crcPoly : Nat := 0xEDB88320

/-- One bit step of the reflected CRC-32: shift right, conditionally xor the
polynomial depending on the low bit. -/
def crcBit (r : Nat) : Nat :=
  if r % 2 = 1 then r / 2 ^^^ crcPoly else r / 2

/-- One byte step of CRC-32: xor the byte into the register, then run eight
bit steps. -/
def crcByteStep (r b : Nat) : Nat :=
  crcBit^[8] (r ^^^ b)

/-- CRC-32 register run over a byte list from register value `r`. -/
def crc32Aux : Nat → List Nat → Nat
  | r, [] => r
  | r, b :: bs => crc32Aux (crcByteStep r b) bs

/-- Embedding of `zlib.crc32` on a byte string: initial register 0xFFFFFFFF,
final xor 0xFFFFFFFF. -/
def crc32 (bs : List Nat) : Nat :=
  crc32Aux 0xFFFFFFFF bs ^^^ 0xFFFFFFFF

/-! ## The '<LLBBLL>'-shaped record layout (struct pack/unpack) -/

/-- Little-endian 4-byte encoding of a 32-bit value, as `struct.pack '<L'`
lays it out. -/
def le32 (n : Nat) : List Nat :=
  [n % 256, n / 256 % 256, n / 65536 % 256, n / 16777216 % 256]

/-- Little-endian 32-bit value of four bytes, as `struct.unpack '<L'`
computes it. -/
def fromLE4 (b0 b1 b2 b3 : Nat) : Nat :=
  b0 + 256 * b1 + 65536 * b2 + 16777216 * b3

/-- Byte layout of `struct.pack('<LLBBLL', messageID, acknowledgeID, module,
commandType, data, checksum)`: an 18-byte record. -/
def packMessageBytes (messageID acknowledgeID module commandType data checksum : Nat) :
    List Nat :=
  le32 messageID ++ le32 acknowledgeID ++ [module % 256, commandType % 256] ++
    le32 data ++ le32 checksum

/-- Embedding of `HardwareController.__packMessage`: increments the
`__lastMessageID` counter, packs the record with checksum 0, computes
`crc32(rawMessage) & 0xffffffff`, and repacks with the real checksum.
Returns the new counter value together with the record bytes. -/
def packMessage (lastMessageID module commandType data acknowledgeID : Nat) :
    Nat × List Nat :=
  let mid := lastMessageID + 1
  let checksum :=
    crc32 (packMessageBytes mid acknowledgeID module commandType data 0) &&& 0xFFFFFFFF
  (mid, packMessageBytes mid acknowledgeID module commandType data checksum)

/-- Items the source places on `recvMessageQueue`: the decoded dictionary,
the string `"Invalid: Checksum failed"` (`invalidChecksum`), the string
`"error putting messg to queue"` put by the catch-all handler when
`struct.unpack` fails on a wrong-length buffer (`malformed`), the string
`"Invalid"` put by `__unpackFrame` on a bad delimiter (`invalidFrame`), and
the Python `None` value that `recvMessage` puts after each frame
(`noneItem`). -/
inductive QueueItem where
  | record (messageID acknowledgeID module commandType data checksum : Nat)
  | invalidChecksum
  | malformed
  | invalidFrame
  | noneItem
  deriving DecidableEq, Repr

/-- Embedding of the body of `HardwareController.__unpackMessage`: unpack
`'<LLBBLL'` (an exception on any length other than 18 is caught and turned
into the `malformed` queue item), repack with checksum 0, recompute
`crc32 & 0xffffffff`, and compare with the transmitted checksum. -/
def unpackMessage (message : List Nat) : QueueItem :=
  match message with
  | [a0, a1, a2, a3, k0, k1, k2, k3, mo, ct, d0, d1, d2, d3, c0, c1, c2, c3] =>
    let messageID := fromLE4 a0 a1 a2 a3
    let acknowledgeID := fromLE4 k0 k1 k2 k3
    let data := fromLE4 d0 d1 d2 d3
    let recvChecksum := fromLE4 c0 c1 c2 c3
    let calcChecksum :=
      crc32 (packMessageBytes messageID acknowledgeID mo ct data 0) &&& 0xFFFFFFFF
    if recvChecksum = calcChecksum then
      QueueItem.record messageID acknowledgeID mo ct data recvChecksum
    else
      QueueItem.invalidChecksum
  | _ => QueueItem.malformed

/-- Queue effect of `__unpackMessage`: every call puts exactly one item on
`recvMessageQueue`. -/
def unpackMessagePut (q : List QueueItem) (message : List Nat) : List QueueItem :=
  q ++ [unpackMessage message]

/-! ## Frame codec -/

/-- Escaping loop of `__packFrame`: each byte equal to `FRAME_ESC` or
`FRAME_FLAG` is emitted preceded by `FRAME_ESC`; every other byte is emitted
unchanged. -/
def escapeBytes : List Nat → List Nat
  | [] => []
  | b :: rest =>
    if b = FRAME_ESC ∨ b = FRAME_FLAG then FRAME_ESC :: b :: escapeBytes rest
    else b :: escapeBytes rest

/-- Embedding of `HardwareController.__packFrame`: a `FRAME_FLAG`, the
escaped message, a closing `FRAME_FLAG`. -/
def packFrame (message : List Nat) : List Nat :=
  FRAME_FLAG :: (escapeBytes message ++ [FRAME_FLAG])

/-- Un-escaping loop of `__unpackFrame`, iterating over the whole frame with
the `nextByteValid` flag: a byte after an escape is copied verbatim, an
escape byte sets the flag, any other non-delimiter byte is copied, and
delimiter bytes are skipped. -/
def unescapeLoop : List Nat → Bool → List Nat
  | [], _ => []
  | b :: rest, nextByteValid =>
    if nextByteValid then b :: unescapeLoop rest false
    else if b = FRAME_ESC then unescapeLoop rest true
    else if b ≠ FRAME_FLAG then b :: unescapeLoop rest nextByteValid
    else unescapeLoop rest nextByteValid

/-- Embedding of `HardwareController.__unpackFrame`: if the first or last
byte is not `FRAME_FLAG` the string `"Invalid"` is put on the queue and the
(empty) message is returned; otherwise the un-escaping loop runs over the
frame.  Returns the message together with the queue items put. -/
def unpackFrame (frame : List Nat) : List Nat × List QueueItem :=
  if frame.head? ≠ some FRAME_FLAG ∨ frame.getLast? ≠ some FRAME_FLAG then
    ([], [QueueItem.invalidFrame])
  else
    (unescapeLoop frame false, [])

/-- Scan of a byte region checking that no unescaped `FRAME_FLAG` or
`FRAME_ESC` occurs: every `FRAME_ESC` must be followed by a (then escaped)
byte, and no bare `FRAME_FLAG` may appear. -/
def noUnescaped : List Nat → Bool
  | [] => true
  | b :: rest =>
    if b = FRAME_ESC then
      match rest with
      | [] => false
      | _ :: rest2 => noUnescaped rest2
    else
      (b != FRAME_FLAG) && noUnescaped rest

/-! ## Controller state, send path, receive state machine -/

/-- Mutable state of `HardwareController` relevant to the protocol:
the `__lastMessageID` counter, the `isConnected` flag and the contents of
`recvMessageQueue` (oldest first). -/
structure Controller where
  lastMessageID : Nat
  isConnected : Bool
  recvMessageQueue : List QueueItem
  deriving DecidableEq, Repr

/-- Embedding of `HardwareController.sendMessage`: when not connected it
returns immediately (state unchanged, nothing written); otherwise it packs
the message, frames it and writes the frame to the serial port.  Returns
the new state and the bytes written to the transport. -/
def sendMessage (c : Controller) (module commandType data acknowledgeID : Nat) :
    Controller × List Nat :=
  if c.isConnected = false then (c, [])
  else
    let r := packMessage c.lastMessageID module commandType data acknowledgeID
    ({ c with lastMessageID := r.1 }, packFrame r.2)

/-- Result of one `recvMessage` call: early return because not connected
(nothing read, nothing queued), a completed frame (with the remaining
stream), or divergence because the stream was exhausted before a frame
completed (`serialPort.read(1)` keeps returning empty). -/
inductive RecvResult where
  | notConnected (c : Controller) (rest : List Nat)
  | received (c : Controller) (rest : List Nat)
  | blocked
  deriving DecidableEq, Repr

/-- The `while not foundEndOfFrame` loop of `recvMessage`, reading one byte
at a time from the stream.  Returns the accumulated message and the
unconsumed remainder of the stream, or `none` if the stream runs out before
the closing delimiter (the Python loop would then spin forever on empty
reads). -/
def recvLoop : List Nat → Bool → Bool → List Nat → Option (List Nat × List Nat)
  | [], _, _, _ => none
  | b :: rest, foundStartOfFrame, foundEscFlag, message =>
    if foundStartOfFrame && (b == FRAME_FLAG) && !foundEscFlag then
      some (message, rest)
    else if (b == FRAME_FLAG) && !foundStartOfFrame then
      recvLoop rest true foundEscFlag message
    else if foundStartOfFrame && (b == FRAME_ESC) && !foundEscFlag then
      recvLoop rest foundStartOfFrame true message
    else if foundStartOfFrame && foundEscFlag then
      recvLoop rest foundStartOfFrame false (message ++ [b])
    else if foundStartOfFrame && !foundEscFlag then
      recvLoop rest foundStartOfFrame foundEscFlag (message ++ [b])
    else
      recvLoop rest foundStartOfFrame foundEscFlag message

/-- Embedding of `HardwareController.recvMessage`: early return when not
connected; otherwise drive the receive loop to a complete frame, call
`__unpackMessage` on the accumulated message (which puts one item on the
queue), and then put the `None` return value of `__unpackMessage` on the
queue as well, exactly as the source does. -/
def recvMessage (c : Controller) (stream : List Nat) : RecvResult :=
  if c.isConnected = false then RecvResult.notConnected c stream
  else
    match recvLoop stream false false [] with
    | none => RecvResult.blocked
    | some (message, rest) =>
      RecvResult.received
        { c with recvMessageQueue :=
            unpackMessagePut c.recvMessageQueue message ++ [QueueItem.noneItem] }
        rest

/-- Drives `recvMessage` to completion `n` times over a byte stream. -/
def recvN : Nat → Controller → List Nat → Option (Controller × List Nat)
  | 0, c, stream => some (c, stream)
  | n + 1, c, stream =>
    match recvMessage c stream with
    | RecvResult.received c2 rest => recvN n c2 rest
    | _ => none

/-- The message identifiers assigned by `n` successive `__packMessage` calls
starting from counter value `lastMessageID`. -/
def sendIDs : Nat → Nat → List Nat
  | _, 0 => []
  | lastMessageID, n + 1 =>
    let r := packMessage lastMessageID MODULE_MOTOR CMD_MOTOR_FORWARD 0 0
    r.1 :: sendIDs r.1 n

/-! ## Bit flips -/

/-- Flips bit `i` (bit `i % 8` of byte `i / 8`) of a byte string. -/
def flipBitInRecord (m : List Nat) (i : Nat) : List Nat :=
  m.set (i / 8) (m.getD (i / 8) 0 ^^^ 2 ^ (i % 8))

/-- Byte list of length `n` that is zero except for value `v` at index `k`. -/
def oneHot : Nat → Nat → Nat → List Nat
  | 0, _, _ => []
  | n + 1, 0, v => v :: List.replicate n 0
  | n + 1, k + 1, v => 0 :: oneHot n k v

/-- Pointwise xor of two byte lists. -/
def zipXor (xs ys : List Nat) : List Nat :=
  List.zipWith (· ^^^ ·) xs ys

/-! ## CRC-32 lemmas: GF(2)-linearity and range -/

/-- Left-commutativity of xor on `Nat`, used to normalise xor expressions. -/
theorem natXor_left_comm (a b c : Nat) : a ^^^ (b ^^^ c) = b ^^^ (a ^^^ c) := by
  rw [← Nat.xor_assoc, Nat.xor_comm a b, Nat.xor_assoc]

/-- One CRC bit step is linear over xor. -/
theorem crcBit_xor (a b : Nat) : crcBit (a ^^^ b) = crcBit a ^^^ crcBit b := by
  unfold crcBit
  have hab : (a ^^^ b) % 2 = (a + b) % 2 := Nat.xor_mod_two_eq
  have hd : (a ^^^ b) / 2 = a / 2 ^^^ b / 2 := Nat.xor_div_two
  rcases Nat.mod_two_eq_zero_or_one a with ha | ha <;>
    rcases Nat.mod_two_eq_zero_or_one b with hb | hb
  · rw [if_neg (by omega), if_neg (by omega), if_neg (by omega), hd]
  · rw [if_pos (by omega), if_neg (by omega), if_pos (by omega), hd]
    rw [Nat.xor_assoc]
  · rw [if_pos (by omega), if_pos (by omega), if_neg (by omega), hd]
    rw [Nat.xor_assoc, Nat.xor_comm (b / 2), ← Nat.xor_assoc]
  · rw [if_neg (by omega), if_pos (by omega), if_pos (by omega), hd]
    rw [Nat.xor_assoc, natXor_left_comm crcPoly, Nat.xor_self, Nat.xor_zero]

/-- Iterated CRC bit steps are linear over xor. -/
theorem crcBit_iterate_xor (n a b : Nat) :
    crcBit^[n] (a ^^^ b) = crcBit^[n] a ^^^ crcBit^[n] b := by
  induction n generalizing a b with
  | zero => rfl
  | succ n ih =>
    simp only [Function.iterate_succ_apply, crcBit_xor, ih]

/-- The CRC byte step is jointly linear over xor. -/
theorem crcByteStep_xor (r1 r2 b1 b2 : Nat) :
    crcByteStep (r1 ^^^ r2) (b1 ^^^ b2) = crcByteStep r1 b1 ^^^ crcByteStep r2 b2 := by
  unfold crcByteStep
  rw [← crcBit_iterate_xor]
  congr 1
  simp [Nat.xor_assoc, Nat.xor_comm, natXor_left_comm]

/-- The CRC register run sends pointwise-xored inputs to the xor of the runs. -/
theorem crc32Aux_zipXor (m e : List Nat) (h : m.length = e.length) (r1 r2 : Nat) :
    crc32Aux (r1 ^^^ r2) (zipXor m e) = crc32Aux r1 m ^^^ crc32Aux r2 e := by
  induction m generalizing e r1 r2 with
  | nil =>
    cases e with
    | nil => rfl
    | cons x xs => simp at h
  | cons b bs ih =>
    cases e with
    | nil => simp at h
    | cons x xs =>
      have h' : bs.length = xs.length := by simpa using h
      show crc32Aux (crcByteStep (r1 ^^^ r2) (b ^^^ x)) (zipXor bs xs) = _
      rw [crcByteStep_xor]
      exact ih xs h' _ _

/-- Full CRC-32 of a pointwise-xored message: the final value is the CRC of
the message xored with the plain register run of the error pattern from 0. -/
theorem crc32_zipXor (m e : List Nat) (h : m.length = e.length) :
    crc32 (zipXor m e) = crc32 m ^^^ crc32Aux 0 e := by
  unfold crc32
  have h0 : (0xFFFFFFFF : Nat) = 0xFFFFFFFF ^^^ 0 := by simp
  rw [h0, crc32Aux_zipXor m e h]
  simp [Nat.xor_assoc, Nat.xor_comm, natXor_left_comm]

/-- The CRC bit step keeps the register below 2^32. -/
theorem crcBit_lt (r : Nat) (h : r < 4294967296) : crcBit r < 4294967296 := by
  unfold crcBit
  have hdiv : r / 2 < 4294967296 := by omega
  split
  · have : (4294967296 : Nat) = 2 ^ 32 := by norm_num
    rw [this] at hdiv ⊢
    exact Nat.xor_lt_two_pow hdiv (by norm_num [crcPoly])
  · exact hdiv

/-- Iterated CRC bit steps keep the register below 2^32. -/
theorem crcBit_iterate_lt (n r : Nat) (h : r < 4294967296) :
    crcBit^[n] r < 4294967296 := by
  induction n generalizing r with
  | zero => exact h
  | succ n ih => rw [Function.iterate_succ_apply]; exact ih _ (crcBit_lt r h)

/-- The CRC byte step keeps the register below 2^32 for byte inputs. -/
theorem crcByteStep_lt (r b : Nat) (hr : r < 4294967296) (hb : b < 256) :
    crcByteStep r b < 4294967296 := by
  unfold crcByteStep
  refine crcBit_iterate_lt 8 _ ?_
  have : (4294967296 : Nat) = 2 ^ 32 := by norm_num
  rw [this]
  exact Nat.xor_lt_two_pow (by omega) (by omega)

/-- The CRC register run keeps the register below 2^32 over byte inputs. -/
theorem crc32Aux_lt (m : List Nat) (r : Nat) (hr : r < 4294967296)
    (hm : ∀ b ∈ m, b < 256) : crc32Aux r m < 4294967296 := by
  induction m generalizing r with
  | nil => exact hr
  | cons b bs ih =>
    show crc32Aux (crcByteStep r b) bs < 4294967296
    exact ih _ (crcByteStep_lt r b hr (hm b (by simp)))
      (fun x hx => hm x (List.mem_cons_of_mem b hx))

/-- CRC-32 of a byte string is below 2^32. -/
theorem crc32_lt (m : List Nat) (hm : ∀ b ∈ m, b < 256) : crc32 m < 4294967296 := by
  unfold crc32
  have : (4294967296 : Nat) = 2 ^ 32 := by norm_num
  rw [this]
  exact Nat.xor_lt_two_pow (by rw [← this]; exact crc32Aux_lt m _ (by norm_num) hm)
    (by norm_num)

/-! ## Byte-layout lemmas -/

/-- The `& 0xffffffff` mask in the source is reduction modulo 2^32. -/
theorem and_mask_eq_mod (x : Nat) : x &&& 0xFFFFFFFF = x % 4294967296 := by
  have h := Nat.and_pow_two_sub_one_eq_mod x 32
  norm_num at h
  exact h

/-- Packing four little-endian bytes back from their 32-bit value recovers
the bytes. -/
theorem le32_fromLE4 (b0 b1 b2 b3 : Nat) (h0 : b0 < 256) (h1 : b1 < 256)
    (h2 : b2 < 256) (h3 : b3 < 256) :
    le32 (fromLE4 b0 b1 b2 b3) = [b0, b1, b2, b3] := by
  simp only [le32, fromLE4, List.cons.injEq, and_true]
  omega

/-- The 32-bit value of the four little-endian bytes of `x` is `x % 2^32`. -/
theorem fromLE4_le32 (x : Nat) :
    fromLE4 (x % 256) (x / 256 % 256) (x / 65536 % 256) (x / 16777216 % 256) =
      x % 4294967296 := by
  unfold fromLE4
  omega

/-- Little-endian encoding only sees the value modulo 2^32. -/
theorem le32_mod (x : Nat) : le32 (x % 4294967296) = le32 x := by
  simp only [le32, List.cons.injEq, and_true]
  omega

/-- The record layout only sees the messageID modulo 2^32. -/
theorem packMessageBytes_mid_mod (mid a mo ct d cs : Nat) :
    packMessageBytes (mid % 4294967296) a mo ct d cs =
      packMessageBytes mid a mo ct d cs := by
  simp only [packMessageBytes, le32_mod]

/-- Every byte of a packed record is below 256. -/
theorem packMessageBytes_lt (mid a mo ct d cs : Nat) :
    ∀ b ∈ packMessageBytes mid a mo ct d cs, b < 256 := by
  intro b hb
  simp only [packMessageBytes, le32, List.mem_append, List.mem_cons,
    List.mem_singleton, List.not_mem_nil, or_false] at hb
  rcases hb with h | h | h | h <;> omega

/-! ## List helper lemmas -/

/-- Setting one position leaves `getD` at other positions unchanged. -/
theorem getD_set_ne (l : List Nat) (k t v : Nat) (h : k ≠ t) :
    (l.set k v).getD t 0 = l.getD t 0 := by
  rw [List.getD_eq_getElem?_getD, List.getElem?_set_ne h, ← List.getD_eq_getElem?_getD]

/-- Setting a position in range makes `getD` there return the new value. -/
theorem getD_set_self (l : List Nat) (k v : Nat) (h : k < l.length) :
    (l.set k v).getD k 0 = v := by
  rw [List.getD_eq_getElem?_getD, List.getElem?_set_self h]
  rfl

/-- Setting below the prefix length commutes with `take`. -/
theorem take_set_of_lt (l : List Nat) (k n v : Nat) (h : k < n) :
    (l.set k v).take n = (l.take n).set k v := by
  induction l generalizing k n with
  | nil => simp
  | cons b bs ih =>
    cases k with
    | zero =>
      cases n with
      | zero => omega
      | succ n => simp [List.take_succ_cons]
    | succ k =>
      cases n with
      | zero => omega
      | succ n =>
        simp only [List.set_cons_succ, List.take_succ_cons, List.set]
        rw [ih k n (by omega)]

/-- Setting at or beyond the prefix length leaves `take` unchanged. -/
theorem take_set_of_ge (l : List Nat) (k n v : Nat) (h : n ≤ k) :
    (l.set k v).take n = l.take n := by
  induction l generalizing k n with
  | nil => simp
  | cons b bs ih =>
    cases k with
    | zero =>
      cases n with
      | zero => simp
      | succ n => omega
    | succ k =>
      cases n with
      | zero => simp
      | succ n =>
        simp only [List.set_cons_succ, List.take_succ_cons]
        rw [ih k n (by omega)]

/-- Values of `getD` inside the taken prefix agree with the original list. -/
theorem getD_take (l : List Nat) (k n : Nat) (h : k < n) :
    (l.take n).getD k 0 = l.getD k 0 := by
  rw [List.getD_eq_getElem?_getD, List.getElem?_take, if_pos h,
    ← List.getD_eq_getElem?_getD]

/-- Length of a one-hot byte list. -/
theorem oneHot_length (n k v : Nat) : (oneHot n k v).length = n := by
  induction n generalizing k with
  | zero => rfl
  | succ n ih =>
    cases k with
    | zero => simp [oneHot]
    | succ k => simp [oneHot, ih]

/-- A one-hot list with hot position inside the first block splits as a
one-hot list followed by zeros. -/
theorem oneHot_append (n m k v : Nat) (h : k < n) :
    oneHot (n + m) k v = oneHot n k v ++ List.replicate m 0 := by
  induction n generalizing k with
  | zero => omega
  | succ n ih =>
    have hnm : n + 1 + m = n + m + 1 := by omega
    rw [hnm]
    cases k with
    | zero =>
      show v :: List.replicate (n + m) 0 = (v :: List.replicate n 0) ++ List.replicate m 0
      rw [List.replicate_add n m, List.cons_append]
    | succ k =>
      show oneHot (n + m + 1) (k + 1) v = (0 :: oneHot n k v) ++ List.replicate m 0
      simp only [oneHot, List.cons_append]
      rw [ih k (by omega)]

/-- Cons law of pointwise xor. -/
theorem zipXor_cons (a b : Nat) (as bs : List Nat) :
    zipXor (a :: as) (b :: bs) = (a ^^^ b) :: zipXor as bs := rfl

/-- Xor with an all-zero list is the identity. -/
theorem zipXor_replicate_zero (l : List Nat) :
    zipXor l (List.replicate l.length 0) = l := by
  induction l with
  | nil => rfl
  | cons b bs ih =>
    show zipXor (b :: bs) (0 :: List.replicate bs.length 0) = b :: bs
    rw [zipXor_cons, ih, Nat.xor_zero]

/-- Flipping one position by xor is pointwise xor with a one-hot list. -/
theorem set_xor_eq_zipXor_oneHot (l : List Nat) (k v : Nat) (h : k < l.length) :
    l.set k (l.getD k 0 ^^^ v) = zipXor l (oneHot l.length k v) := by
  induction l generalizing k with
  | nil => simp at h
  | cons b bs ih =>
    cases k with
    | zero =>
      show (b ^^^ v) :: bs = zipXor (b :: bs) (v :: List.replicate bs.length 0)
      rw [zipXor_cons, zipXor_replicate_zero]
    | succ k =>
      show b :: bs.set k (bs.getD k 0 ^^^ v) = zipXor (b :: bs) (0 :: oneHot bs.length k v)
      rw [zipXor_cons, Nat.xor_zero, ih k (by simpa using h)]

/-- Bytes of a list stay below 256 after setting a position to a byte. -/
theorem mem_set_lt (l : List Nat) (hb : ∀ b ∈ l, b < 256) (k x : Nat) (hx : x < 256) :
    ∀ b ∈ l.set k x, b < 256 := by
  intro b hmem
  rcases List.mem_or_eq_of_mem_set hmem with h | h
  · exact hb b h
  · omega

/-- A `getD` value of a byte list is a byte. -/
theorem getD_lt_of_forall (l : List Nat) (hb : ∀ b ∈ l, b < 256) (k : Nat) :
    l.getD k 0 < 256 := by
  induction l generalizing k with
  | nil => simp [List.getD]
  | cons b bs ih =>
    cases k with
    | zero => exact hb b (by simp)
    | succ k =>
      rw [List.getD_cons_succ]
      exact ih (fun x hx => hb x (List.mem_cons_of_mem b hx)) k

/-! ## Unpack/repack byte-level lemmas -/

/-- Repacking the decoded fields with checksum 0 reproduces the first 14
bytes of the record followed by four zero bytes. -/
theorem packMessageBytes_fromLE4 (a0 a1 a2 a3 k0 k1 k2 k3 mo ct d0 d1 d2 d3 : Nat)
    (ha0 : a0 < 256) (ha1 : a1 < 256) (ha2 : a2 < 256) (ha3 : a3 < 256)
    (hk0 : k0 < 256) (hk1 : k1 < 256) (hk2 : k2 < 256) (hk3 : k3 < 256)
    (hmo : mo < 256) (hct : ct < 256)
    (hd0 : d0 < 256) (hd1 : d1 < 256) (hd2 : d2 < 256) (hd3 : d3 < 256) :
    packMessageBytes (fromLE4 a0 a1 a2 a3) (fromLE4 k0 k1 k2 k3) mo ct
        (fromLE4 d0 d1 d2 d3) 0 =
      [a0, a1, a2, a3, k0, k1, k2, k3, mo, ct, d0, d1, d2, d3, 0, 0, 0, 0] := by
  unfold packMessageBytes
  rw [le32_fromLE4 a0 a1 a2 a3 ha0 ha1 ha2 ha3, le32_fromLE4 k0 k1 k2 k3 hk0 hk1 hk2 hk3,
    le32_fromLE4 d0 d1 d2 d3 hd0 hd1 hd2 hd3, Nat.mod_eq_of_lt hmo, Nat.mod_eq_of_lt hct]
  rfl

/-- Evaluated form of `__unpackMessage` on an 18-byte record: compare the
transmitted checksum (bytes 14..17, little-endian) against the CRC-32 of the
record with its checksum field zeroed. -/
theorem unpack_eq (m : List Nat) (hlen : m.length = 18) (hb : ∀ b ∈ m, b < 256) :
    unpackMessage m =
      if fromLE4 (m.getD 14 0) (m.getD 15 0) (m.getD 16 0) (m.getD 17 0) =
          crc32 (m.take 14 ++ [0, 0, 0, 0]) &&& 0xFFFFFFFF then
        QueueItem.record (fromLE4 (m.getD 0 0) (m.getD 1 0) (m.getD 2 0) (m.getD 3 0))
          (fromLE4 (m.getD 4 0) (m.getD 5 0) (m.getD 6 0) (m.getD 7 0))
          (m.getD 8 0) (m.getD 9 0)
          (fromLE4 (m.getD 10 0) (m.getD 11 0) (m.getD 12 0) (m.getD 13 0))
          (fromLE4 (m.getD 14 0) (m.getD 15 0) (m.getD 16 0) (m.getD 17 0))
      else QueueItem.invalidChecksum := by
  rcases m with _ | ⟨a0, _ | ⟨a1, _ | ⟨a2, _ | ⟨a3, _ | ⟨k0, _ | ⟨k1, _ | ⟨k2, _ | ⟨k3,
    _ | ⟨mo, _ | ⟨ct, _ | ⟨d0, _ | ⟨d1, _ | ⟨d2, _ | ⟨d3, _ | ⟨c0, _ | ⟨c1, _ | ⟨c2,
    _ | ⟨c3, _ | ⟨x, rest⟩⟩⟩⟩⟩⟩⟩⟩⟩⟩⟩⟩⟩⟩⟩⟩⟩⟩⟩
  all_goals try (exfalso; simp only [List.length_cons, List.length_nil] at hlen; omega)
  have hpack := packMessageBytes_fromLE4 a0 a1 a2 a3 k0 k1 k2 k3 mo ct d0 d1 d2 d3
    (hb a0 (by simp)) (hb a1 (by simp)) (hb a2 (by simp)) (hb a3 (by simp))
    (hb k0 (by simp)) (hb k1 (by simp)) (hb k2 (by simp)) (hb k3 (by simp))
    (hb mo (by simp)) (hb ct (by simp))
    (hb d0 (by simp)) (hb d1 (by simp)) (hb d2 (by simp)) (hb d3 (by simp))
  show (if fromLE4 c0 c1 c2 c3 =
          crc32 (packMessageBytes (fromLE4 a0 a1 a2 a3) (fromLE4 k0 k1 k2 k3) mo ct
            (fromLE4 d0 d1 d2 d3) 0) &&& 0xFFFFFFFF then
        QueueItem.record (fromLE4 a0 a1 a2 a3) (fromLE4 k0 k1 k2 k3) mo ct
          (fromLE4 d0 d1 d2 d3) (fromLE4 c0 c1 c2 c3)
      else QueueItem.invalidChecksum) =
      if fromLE4 c0 c1 c2 c3 =
          crc32 [a0, a1, a2, a3, k0, k1, k2, k3, mo, ct, d0, d1, d2, d3, 0, 0, 0, 0]
            &&& 0xFFFFFFFF then
        QueueItem.record (fromLE4 a0 a1 a2 a3) (fromLE4 k0 k1 k2 k3) mo ct
          (fromLE4 d0 d1 d2 d3) (fromLE4 c0 c1 c2 c3)
      else QueueItem.invalidChecksum
  rw [hpack]

/-- A byte string whose length is not 18 makes `struct.unpack` raise, so
`__unpackMessage` produces the malformed-record queue item. -/
theorem unpack_malformed (m : List Nat) (h : m.length ≠ 18) :
    unpackMessage m = QueueItem.malformed := by
  rcases m with _ | ⟨a0, _ | ⟨a1, _ | ⟨a2, _ | ⟨a3, _ | ⟨k0, _ | ⟨k1, _ | ⟨k2, _ | ⟨k3,
    _ | ⟨mo, _ | ⟨ct, _ | ⟨d0, _ | ⟨d1, _ | ⟨d2, _ | ⟨d3, _ | ⟨c0, _ | ⟨c1, _ | ⟨c2,
    _ | ⟨c3, _ | ⟨x, rest⟩⟩⟩⟩⟩⟩⟩⟩⟩⟩⟩⟩⟩⟩⟩⟩⟩⟩⟩
  all_goals first
  | rfl
  | exact absurd rfl h

set_option maxRecDepth 4096 in
/-- No single-bit error pattern in an 18-byte record has a zero CRC-32
register run: the error syndrome of every one of the 144 bit positions is
nonzero.  Established by evaluation over all positions. -/
theorem syndrome_ne_zero :
    ∀ k, k < 18 → ∀ j, j < 8 → crc32Aux 0 (oneHot 18 k (2 ^ j)) ≠ 0 := by decide

/-! ## Frame codec lemmas -/

/-- An escape byte at the head of the un-escaping loop sets the
`nextByteValid` flag and emits nothing. -/
theorem unescapeLoop_esc (rest : List Nat) :
    unescapeLoop (FRAME_ESC :: rest) false = unescapeLoop rest true := by
  simp [unescapeLoop, FRAME_ESC, FRAME_FLAG]

/-- With the `nextByteValid` flag set, the next byte is copied verbatim. -/
theorem unescapeLoop_nbv (b : Nat) (rest : List Nat) :
    unescapeLoop (b :: rest) true = b :: unescapeLoop rest false := by
  simp [unescapeLoop]

/-- A delimiter byte is skipped by the un-escaping loop. -/
theorem unescapeLoop_flag (rest : List Nat) :
    unescapeLoop (FRAME_FLAG :: rest) false = unescapeLoop rest false := by
  simp [unescapeLoop, FRAME_ESC, FRAME_FLAG]

/-- An ordinary byte is copied by the un-escaping loop. -/
theorem unescapeLoop_plain (b : Nat) (rest : List Nat) (h1 : b ≠ FRAME_ESC)
    (h2 : b ≠ FRAME_FLAG) :
    unescapeLoop (b :: rest) false = b :: unescapeLoop rest false := by
  simp [unescapeLoop, h1, h2]

/-- Running the un-escaping loop over an escaped message followed by any
tail recovers the message and continues in the cleared state on the tail. -/
theorem unescape_escape (m tail : List Nat) :
    unescapeLoop (escapeBytes m ++ tail) false = m ++ unescapeLoop tail false := by
  induction m with
  | nil => rfl
  | cons b bs ih =>
    by_cases hb : b = FRAME_ESC ∨ b = FRAME_FLAG
    · show unescapeLoop ((if b = FRAME_ESC ∨ b = FRAME_FLAG then
          FRAME_ESC :: b :: escapeBytes bs else b :: escapeBytes bs) ++ tail) false = _
      rw [if_pos hb, List.cons_append, List.cons_append, unescapeLoop_esc,
        unescapeLoop_nbv, ih, List.cons_append]
    · push_neg at hb
      show unescapeLoop ((if b = FRAME_ESC ∨ b = FRAME_FLAG then
          FRAME_ESC :: b :: escapeBytes bs else b :: escapeBytes bs) ++ tail) false = _
      rw [if_neg (by tauto), List.cons_append, unescapeLoop_plain b _ hb.1 hb.2, ih,
        List.cons_append]

/-- The closing delimiter of a packed frame is its last byte. -/
theorem packFrame_getLast (message : List Nat) :
    (packFrame message).getLast? = some FRAME_FLAG := by
  unfold packFrame
  rw [← List.cons_append, List.getLast?_concat]

/-- Escaped regions contain no unescaped delimiter or escape byte. -/
theorem noUnescaped_escapeBytes (m : List Nat) : noUnescaped (escapeBytes m) = true := by
  induction m with
  | nil => rfl
  | cons b bs ih =>
    by_cases hb : b = FRAME_ESC ∨ b = FRAME_FLAG
    · show noUnescaped (if b = FRAME_ESC ∨ b = FRAME_FLAG then
          FRAME_ESC :: b :: escapeBytes bs else b :: escapeBytes bs) = true
      rw [if_pos hb]
      show noUnescaped (escapeBytes bs) = true
      exact ih
    · push_neg at hb
      show noUnescaped (if b = FRAME_ESC ∨ b = FRAME_FLAG then
          FRAME_ESC :: b :: escapeBytes bs else b :: escapeBytes bs) = true
      rw [if_neg (by tauto), noUnescaped.eq_def]
      simp [hb.1, hb.2, ih]

/-- The escape loop emits, for every special byte of the message, exactly
one escape byte directly before it, and copies every other byte. -/
theorem escapeBytes_flatMap (m : List Nat) :
    escapeBytes m = m.flatMap
      (fun b => if b = FRAME_ESC ∨ b = FRAME_FLAG then [FRAME_ESC, b] else [b]) := by
  induction m with
  | nil => rfl
  | cons b bs ih =>
    show (if b = FRAME_ESC ∨ b = FRAME_FLAG then
        FRAME_ESC :: b :: escapeBytes bs else b :: escapeBytes bs) = _
    rw [List.flatMap_cons, ih]
    by_cases hb : b = FRAME_ESC ∨ b = FRAME_FLAG
    · rw [if_pos hb, if_pos hb]
      rfl
    · rw [if_neg hb, if_neg hb]
      rfl

/-- C2.  Frame codec round-trip: for every byte string `message` (including
strings containing raw DELIMITER 0x0C and ESCAPE 0x1B bytes), un-escaping
the frame produced from it returns exactly the original message and puts
nothing on the queue: `__unpackFrame (__packFrame message) = message`. -/
theorem c2_frame_codec_roundtrip (message : List Nat) :
    unpackFrame (packFrame message) = (message, []) := by
  have hlast : (FRAME_FLAG :: (escapeBytes message ++ [FRAME_FLAG])).getLast? =
      some FRAME_FLAG := packFrame_getLast message
  unfold unpackFrame
  rw [if_neg (by simp [hlast, packFrame])]
  unfold packFrame
  rw [unescapeLoop_flag, unescape_escape]
  have h1 : unescapeLoop [FRAME_FLAG] false = [] := by
    rw [unescapeLoop_flag]
    rfl
  rw [h1, List.append_nil]

/-- C6.  For every input byte string whose first byte or last byte is not
the DELIMITER 0x0C, `__unpackFrame` signals the invalid frame on the queue
and returns the empty message rather than message bytes. -/
theorem c6_missing_delimiter (frame : List Nat)
    (h : frame.head? ≠ some FRAME_FLAG ∨ frame.getLast? ≠ some FRAME_FLAG) :
    unpackFrame frame = ([], [QueueItem.invalidFrame]) := by
  unfold unpackFrame
  rw [if_pos h]

/-- Witness for C6 at the concrete input `[1, 2, 3]`. -/
theorem c6_missing_delimiter_witness :
    (([1, 2, 3] : List Nat).head? ≠ some FRAME_FLAG ∨
        ([1, 2, 3] : List Nat).getLast? ≠ some FRAME_FLAG) ∧
      unpackFrame [1, 2, 3] = ([], [QueueItem.invalidFrame]) :=
  ⟨by decide, c6_missing_delimiter [1, 2, 3] (by decide)⟩

/-- C9 counterexample.  The frame `0x0C 0x1B 0x0C`, whose interior ends with
an ESCAPE immediately followed by the closing DELIMITER, is not rejected:
`__unpackFrame` returns the message bytes `[0x0C]` (the closing delimiter
consumed as escaped data) and signals no error at all. -/
theorem c9_counterexample :
    unpackFrame [FRAME_FLAG, FRAME_ESC, FRAME_FLAG] = ([FRAME_FLAG], []) := by decide

/-- C9 as amended.  A frame whose interior ends with an unterminated ESCAPE
immediately before the closing DELIMITER is not failed closed: the closing
DELIMITER is consumed as an escaped data byte, and `__unpackFrame` returns
the un-escaped interior with a DELIMITER byte appended, signalling no
error. -/
theorem c9_unterminated_escape (message : List Nat) :
    unpackFrame (FRAME_FLAG :: (escapeBytes message ++ [FRAME_ESC, FRAME_FLAG])) =
      (message ++ [FRAME_FLAG], []) := by
  have hlast : (FRAME_FLAG :: (escapeBytes message ++ [FRAME_ESC, FRAME_FLAG])).getLast?
      = some FRAME_FLAG := by
    have h2 : escapeBytes message ++ [FRAME_ESC, FRAME_FLAG] =
        (escapeBytes message ++ [FRAME_ESC]) ++ [FRAME_FLAG] := by
      simp [List.append_assoc]
    rw [h2, ← List.cons_append, List.getLast?_concat]
  unfold unpackFrame
  rw [if_neg (by simp [hlast])]
  rw [unescapeLoop_flag, unescape_escape]
  have htail : unescapeLoop [FRAME_ESC, FRAME_FLAG] false = [FRAME_FLAG] := by
    rw [unescapeLoop_esc, unescapeLoop_nbv]
    rfl
  rw [htail]

/-- C10.  Not-connected guard: with `isConnected` false, `sendMessage`
returns immediately with the controller state unchanged (counter not
incremented) and writes nothing to the transport, and `recvMessage` returns
immediately with the state unchanged, reading nothing from the stream and
putting nothing on the queue. -/
theorem c10_not_connected_guard (lastMessageID : Nat) (q : List QueueItem)
    (module commandType data acknowledgeID : Nat) (stream : List Nat) :
    sendMessage ⟨lastMessageID, false, q⟩ module commandType data acknowledgeID =
        (⟨lastMessageID, false, q⟩, []) ∧
      recvMessage ⟨lastMessageID, false, q⟩ stream =
        RecvResult.notConnected ⟨lastMessageID, false, q⟩ stream := by
  constructor <;> rfl

/-- The identifiers handed out by successive `__packMessage` calls count up
from one past the starting counter value. -/
theorem sendIDs_eq (n last : Nat) : sendIDs last n = List.range' (last + 1) n := by
  induction n generalizing last with
  | zero => rfl
  | succ n ih =>
    show (last + 1) :: sendIDs (last + 1) n = _
    rw [List.range'_succ, ih]

/-- C7.  Message identifier allocation: starting from a fresh controller
(counter 0), the identifiers carried by N successive `__packMessage` calls
are exactly 1..N in order (so the N-th encoded message carries messageID N),
strictly increasing, without repeats, and 0 is never assigned. -/
theorem c7_message_id_allocation (N : Nat) :
    sendIDs 0 N = List.range' 1 N ∧
      List.Pairwise (· < ·) (sendIDs 0 N) ∧
      (sendIDs 0 N).Nodup ∧
      0 ∉ sendIDs 0 N := by
  have h := sendIDs_eq N 0
  rw [Nat.zero_add] at h
  refine ⟨h, ?_, ?_, ?_⟩
  · rw [h]
    exact List.pairwise_lt_range' 1 N
  · rw [h]
    exact List.nodup_range' 1 N
  · rw [h]
    intro hmem
    rcases List.mem_range'.mp hmem with ⟨i, _, hi⟩
    omega

/-! ## Message codec theorems -/

/-- Decoding any packed record compares the packed checksum against the
CRC-32 of the same record with checksum field zero, and on success returns
the decoded fields. -/
theorem unpack_pack (mid a mo ct d cs : Nat) (hmo : mo < 256) (hct : ct < 256)
    (ha : a < 4294967296) (hd : d < 4294967296) (hcs : cs < 4294967296) :
    unpackMessage (packMessageBytes mid a mo ct d cs) =
      if cs = crc32 (packMessageBytes mid a mo ct d 0) &&& 0xFFFFFFFF then
        QueueItem.record (mid % 4294967296) a mo ct d cs
      else QueueItem.invalidChecksum := by
  rw [unpack_eq (packMessageBytes mid a mo ct d cs) rfl (packMessageBytes_lt mid a mo ct d cs)]
  show (if fromLE4 (cs % 256) (cs / 256 % 256) (cs / 65536 % 256) (cs / 16777216 % 256) =
        crc32 (packMessageBytes mid a mo ct d 0) &&& 0xFFFFFFFF then
      QueueItem.record
        (fromLE4 (mid % 256) (mid / 256 % 256) (mid / 65536 % 256) (mid / 16777216 % 256))
        (fromLE4 (a % 256) (a / 256 % 256) (a / 65536 % 256) (a / 16777216 % 256))
        (mo % 256) (ct % 256)
        (fromLE4 (d % 256) (d / 256 % 256) (d / 65536 % 256) (d / 16777216 % 256))
        (fromLE4 (cs % 256) (cs / 256 % 256) (cs / 65536 % 256) (cs / 16777216 % 256))
    else QueueItem.invalidChecksum) = _
  rw [fromLE4_le32 mid, fromLE4_le32 a, fromLE4_le32 d, fromLE4_le32 cs,
    Nat.mod_eq_of_lt ha, Nat.mod_eq_of_lt hd, Nat.mod_eq_of_lt hcs,
    Nat.mod_eq_of_lt hmo, Nat.mod_eq_of_lt hct]

/-- C1.  Message codec round-trip: for every module and commandType below
2^8 and every data and acknowledgeID below 2^32, decoding the record
produced by `__packMessage` recovers exactly the encoded module,
commandType, data and acknowledgeID, and the transmitted checksum equals
the CRC-32 recomputed over the record with the checksum field zeroed. -/
theorem c1_message_codec_roundtrip (lastMessageID module commandType data acknowledgeID : Nat)
    (hmo : module < 256) (hct : commandType < 256)
    (hd : data < 4294967296) (ha : acknowledgeID < 4294967296) :
    unpackMessage (packMessage lastMessageID module commandType data acknowledgeID).2 =
      QueueItem.record ((lastMessageID + 1) % 4294967296) acknowledgeID module commandType
        data
        (crc32 (packMessageBytes (lastMessageID + 1) acknowledgeID module commandType
          data 0) &&& 0xFFFFFFFF) := by
  have hcs : crc32 (packMessageBytes (lastMessageID + 1) acknowledgeID module commandType
      data 0) &&& 0xFFFFFFFF < 4294967296 := by
    rw [and_mask_eq_mod]
    exact Nat.mod_lt _ (by norm_num)
  show unpackMessage (packMessageBytes (lastMessageID + 1) acknowledgeID module commandType
      data
      (crc32 (packMessageBytes (lastMessageID + 1) acknowledgeID module commandType data 0)
        &&& 0xFFFFFFFF)) = _
  rw [unpack_pack _ _ _ _ _ _ hmo hct ha hd hcs, if_pos rfl]

/-- Witness for C1 at module 0x32, commandType 0x64, data 255,
acknowledgeID 0, fresh counter. -/
theorem c1_message_codec_roundtrip_witness :
    ((0x32 : Nat) < 256 ∧ (0x64 : Nat) < 256 ∧ (255 : Nat) < 4294967296 ∧
        (0 : Nat) < 4294967296) ∧
      unpackMessage (packMessage 0 0x32 0x64 255 0).2 =
        QueueItem.record ((0 + 1) % 4294967296) 0 0x32 0x64 255
          (crc32 (packMessageBytes (0 + 1) 0 0x32 0x64 255 0) &&& 0xFFFFFFFF) :=
  ⟨⟨by decide, by decide, by decide, by decide⟩,
    c1_message_codec_roundtrip 0 0x32 0x64 255 0 (by decide) (by decide) (by decide)
      (by decide)⟩

/-- C5.  Message decode error taxonomy, with the queue effect of
`__unpackMessage`: a byte string whose length is not 18 yields the
malformed-record item on the queue; an 18-byte string whose transmitted
checksum (bytes 14..17) disagrees with the CRC-32 recomputed over the
record with the checksum field zeroed yields the checksum-mismatch item on
the queue (never silently dropped); otherwise decoding succeeds and the
queued record carries the original transmitted checksum. -/
theorem c5_error_taxonomy (q : List QueueItem) (m : List Nat)
    (hb : ∀ b ∈ m, b < 256) :
    (m.length ≠ 18 → unpackMessagePut q m = q ++ [QueueItem.malformed]) ∧
    (m.length = 18 →
      (fromLE4 (m.getD 14 0) (m.getD 15 0) (m.getD 16 0) (m.getD 17 0) ≠
          crc32 (m.take 14 ++ [0, 0, 0, 0]) &&& 0xFFFFFFFF →
        unpackMessagePut q m = q ++ [QueueItem.invalidChecksum]) ∧
      (fromLE4 (m.getD 14 0) (m.getD 15 0) (m.getD 16 0) (m.getD 17 0) =
          crc32 (m.take 14 ++ [0, 0, 0, 0]) &&& 0xFFFFFFFF →
        unpackMessagePut q m = q ++
          [QueueItem.record (fromLE4 (m.getD 0 0) (m.getD 1 0) (m.getD 2 0) (m.getD 3 0))
            (fromLE4 (m.getD 4 0) (m.getD 5 0) (m.getD 6 0) (m.getD 7 0))
            (m.getD 8 0) (m.getD 9 0)
            (fromLE4 (m.getD 10 0) (m.getD 11 0) (m.getD 12 0) (m.getD 13 0))
            (fromLE4 (m.getD 14 0) (m.getD 15 0) (m.getD 16 0) (m.getD 17 0))])) := by
  refine ⟨fun h => ?_, fun hlen => ⟨fun hne => ?_, fun heq => ?_⟩⟩
  · unfold unpackMessagePut
    rw [unpack_malformed m h]
  · unfold unpackMessagePut
    rw [unpack_eq m hlen hb, if_neg hne]
  · unfold unpackMessagePut
    rw [unpack_eq m hlen hb, if_pos heq]

set_option maxRecDepth 10000 in
/-- Witness for C5 at the all-zero 18-byte record (checksum mismatch branch)
and at a 3-byte input (malformed branch). -/
theorem c5_error_taxonomy_witness :
    unpackMessagePut [] (List.replicate 18 0) = [QueueItem.invalidChecksum] ∧
      unpackMessagePut [] [1, 2, 3] = [QueueItem.malformed] :=
  ⟨((c5_error_taxonomy [] (List.replicate 18 0) (by decide)).2 (by decide)).1 (by decide),
    (c5_error_taxonomy [] [1, 2, 3] (by decide)).1 (by decide)⟩

set_option maxRecDepth 100000 in
/-- C3 (bug evidence).  Feeding the receiver a stream of two independently
encoded valid frames, preceded by extraneous non-delimiter bytes, and
driving `recvMessage` to completion twice places FOUR items on the delivery
queue — each decoded record followed by the Python `None` value that
`recvMessage` itself puts — rather than the two items the specification
describes.  The records themselves do arrive in frame-completion order. -/
theorem c3_receiver_extra_none :
    recvN 2 ⟨0, true, []⟩
        ([1, 2, 3] ++ packFrame (packMessage 0 0x32 0x64 255 0).2 ++
          packFrame (packMessage 1 0x30 0x64 0 1).2) =
      some (⟨0, true,
        [QueueItem.record 1 0 0x32 0x64 255 3280731623, QueueItem.noneItem,
         QueueItem.record 2 1 0x30 0x64 0 2528909096, QueueItem.noneItem]⟩, []) := by
  decide

set_option maxRecDepth 10000 in
/-- C8.  Wire-format contract of frame encoding: every frame begins and
ends with DELIMITER 0x0C and is exactly the delimiter, the escaped message,
and the closing delimiter; the escaped interior contains no unescaped 0x0C
or 0x1B byte; every 0x0C or 0x1B byte of the raw message appears in the
interior preceded by exactly one ESCAPE byte (each special byte expands to
the two-byte group ESCAPE·byte, all other bytes are copied); and the record
for module=0x32, commandType=0x64, data=255, acknowledgeID=0 with
messageID=1 is the deterministic 18-byte string below, whose checksum field
equals the CRC-32 of the record with that field zeroed. -/
theorem c8_wire_format (message : List Nat) :
    (packFrame message).head? = some FRAME_FLAG ∧
    (packFrame message).getLast? = some FRAME_FLAG ∧
    packFrame message = FRAME_FLAG :: (escapeBytes message ++ [FRAME_FLAG]) ∧
    noUnescaped (escapeBytes message) = true ∧
    escapeBytes message = message.flatMap
      (fun b => if b = FRAME_ESC ∨ b = FRAME_FLAG then [FRAME_ESC, b] else [b]) ∧
    (packMessage 0 MODULE_MOTOR CMD_MOTOR_FORWARD 255 0).2 =
      [1, 0, 0, 0, 0, 0, 0, 0, 50, 100, 255, 0, 0, 0, 231, 253, 139, 195] ∧
    (packMessage 0 MODULE_MOTOR CMD_MOTOR_FORWARD 255 0).2.length = 18 ∧
    fromLE4 231 253 139 195 =
      crc32 [1, 0, 0, 0, 0, 0, 0, 0, 50, 100, 255, 0, 0, 0, 0, 0, 0, 0] &&& 0xFFFFFFFF :=
  ⟨rfl, packFrame_getLast message, rfl, noUnescaped_escapeBytes message,
    escapeBytes_flatMap message, by decide, by decide, by decide⟩

/-! ## Single-bit error detection (C4) -/

/-- Entries of a one-hot byte list are bytes when the hot value is. -/
theorem oneHot_mem_lt (n k v : Nat) (hv : v < 256) :
    ∀ b ∈ oneHot n k v, b < 256 := by
  induction n generalizing k with
  | zero => intro b hb; simp [oneHot] at hb
  | succ n ih =>
    intro b hb
    cases k with
    | zero =>
      rcases List.mem_cons.mp hb with h | h
      · omega
      · rcases (List.mem_replicate.mp h).2 with rfl; omega
    | succ k =>
      rcases List.mem_cons.mp hb with h | h
      · omega
      · exact ih k b h

/-- Xoring a nonzero value into any one of four little-endian bytes changes
the decoded 32-bit value. -/
theorem fromLE4_flip_ne (b0 b1 b2 b3 v : Nat) (hv : 0 < v) :
    fromLE4 (b0 ^^^ v) b1 b2 b3 ≠ fromLE4 b0 b1 b2 b3 ∧
    fromLE4 b0 (b1 ^^^ v) b2 b3 ≠ fromLE4 b0 b1 b2 b3 ∧
    fromLE4 b0 b1 (b2 ^^^ v) b3 ≠ fromLE4 b0 b1 b2 b3 ∧
    fromLE4 b0 b1 b2 (b3 ^^^ v) ≠ fromLE4 b0 b1 b2 b3 := by
  have hz : ∀ b : Nat, b ^^^ v = b → v = 0 := by
    intro b hb
    have h2 := Nat.xor_cancel_left b v
    rw [hb, Nat.xor_self] at h2
    omega
  refine ⟨fun h => ?_, fun h => ?_, fun h => ?_, fun h => ?_⟩
  · have hx : b0 ^^^ v = b0 := by unfold fromLE4 at h; omega
    exact absurd (hz b0 hx) (by omega)
  · have hx : b1 ^^^ v = b1 := by unfold fromLE4 at h; omega
    exact absurd (hz b1 hx) (by omega)
  · have hx : b2 ^^^ v = b2 := by unfold fromLE4 at h; omega
    exact absurd (hz b2 hx) (by omega)
  · have hx : b3 ^^^ v = b3 := by unfold fromLE4 at h; omega
    exact absurd (hz b3 hx) (by omega)

/-- Flipping any single bit of a record whose checksum field holds the
masked CRC-32 of the record with that field zeroed makes `__unpackMessage`
report a checksum mismatch. -/
theorem flip_detected (mid a mo ct d i : Nat) (hi : i < 144) (cs : Nat)
    (hcs : crc32 (packMessageBytes mid a mo ct d 0) &&& 0xFFFFFFFF = cs) :
    unpackMessage (flipBitInRecord (packMessageBytes mid a mo ct d cs) i) =
      QueueItem.invalidChecksum := by
  have hcs_lt : cs < 4294967296 := by
    rw [← hcs, and_mask_eq_mod]
    exact Nat.mod_lt _ (by norm_num)
  have hk18 : i / 8 < 18 := by omega
  have hj8 : i % 8 < 8 := by omega
  have hv_pos : 0 < 2 ^ (i % 8) := by positivity
  have h2_8 : (256 : Nat) = 2 ^ 8 := by norm_num
  have hv256 : 2 ^ (i % 8) < 256 := by
    rw [h2_8]
    exact Nat.pow_lt_pow_right (by norm_num) hj8
  have hlen : (packMessageBytes mid a mo ct d cs).length = 18 := rfl
  have hbytes : ∀ b ∈ packMessageBytes mid a mo ct d cs, b < 256 :=
    packMessageBytes_lt mid a mo ct d cs
  have hg14 : (packMessageBytes mid a mo ct d cs).getD 14 0 = cs % 256 := rfl
  have hg15 : (packMessageBytes mid a mo ct d cs).getD 15 0 = cs / 256 % 256 := rfl
  have hg16 : (packMessageBytes mid a mo ct d cs).getD 16 0 = cs / 65536 % 256 := rfl
  have hg17 : (packMessageBytes mid a mo ct d cs).getD 17 0 = cs / 16777216 % 256 := rfl
  have htake : (packMessageBytes mid a mo ct d cs).take 14 ++ [0, 0, 0, 0] =
      packMessageBytes mid a mo ct d 0 := rfl
  have hraw_len : (packMessageBytes mid a mo ct d 0).length = 18 := rfl
  have hraw_bytes : ∀ b ∈ packMessageBytes mid a mo ct d 0, b < 256 :=
    packMessageBytes_lt mid a mo ct d 0
  have hcrc_lt : crc32 (packMessageBytes mid a mo ct d 0) < 4294967296 :=
    crc32_lt _ hraw_bytes
  have hcs_eq : cs = crc32 (packMessageBytes mid a mo ct d 0) := by
    rw [← hcs, and_mask_eq_mod, Nat.mod_eq_of_lt hcrc_lt]
  have hcs4 : fromLE4 (cs % 256) (cs / 256 % 256) (cs / 65536 % 256)
      (cs / 16777216 % 256) = cs := by
    rw [fromLE4_le32 cs]
    exact Nat.mod_eq_of_lt hcs_lt
  set R := packMessageBytes mid a mo ct d cs with hR
  set raw0 := packMessageBytes mid a mo ct d 0 with hRaw
  show unpackMessage (R.set (i / 8) (R.getD (i / 8) 0 ^^^ 2 ^ (i % 8))) =
    QueueItem.invalidChecksum
  have hx_lt : R.getD (i / 8) 0 ^^^ 2 ^ (i % 8) < 256 := by
    have h1 : R.getD (i / 8) 0 < 256 := getD_lt_of_forall R hbytes _
    rw [h2_8] at h1 hv256 ⊢
    exact Nat.xor_lt_two_pow h1 hv256
  rw [unpack_eq (R.set (i / 8) (R.getD (i / 8) 0 ^^^ 2 ^ (i % 8)))
    (by rw [List.length_set, hlen])
    (mem_set_lt R hbytes (i / 8) (R.getD (i / 8) 0 ^^^ 2 ^ (i % 8)) hx_lt)]
  rcases Nat.lt_or_ge (i / 8) 14 with hklt | hkge
  · -- bit flip inside the first 14 bytes: the recomputed CRC changes by a
    -- nonzero syndrome while the transmitted checksum is untouched
    have g14 := getD_set_ne R (i / 8) 14 (R.getD (i / 8) 0 ^^^ 2 ^ (i % 8)) (by omega)
    have g15 := getD_set_ne R (i / 8) 15 (R.getD (i / 8) 0 ^^^ 2 ^ (i % 8)) (by omega)
    have g16 := getD_set_ne R (i / 8) 16 (R.getD (i / 8) 0 ^^^ 2 ^ (i % 8)) (by omega)
    have g17 := getD_set_ne R (i / 8) 17 (R.getD (i / 8) 0 ^^^ 2 ^ (i % 8)) (by omega)
    have htk := take_set_of_lt R (i / 8) 14 (R.getD (i / 8) 0 ^^^ 2 ^ (i % 8)) hklt
    have hlen14 : (R.take 14).length = 14 := by
      rw [List.length_take, hlen]
      omega
    have hgt := getD_take R (i / 8) 14 hklt
    have hzip := set_xor_eq_zipXor_oneHot (R.take 14) (i / 8) (2 ^ (i % 8))
      (by rw [hlen14]; omega)
    rw [hlen14, hgt] at hzip
    have hone : oneHot 18 (i / 8) (2 ^ (i % 8)) =
        oneHot 14 (i / 8) (2 ^ (i % 8)) ++ List.replicate 4 0 :=
      oneHot_append 14 4 (i / 8) (2 ^ (i % 8)) hklt
    have hz4 : zipXor [0, 0, 0, 0] (List.replicate 4 0) = [0, 0, 0, 0] := rfl
    have happ : zipXor (R.take 14 ++ [0, 0, 0, 0])
        (oneHot 14 (i / 8) (2 ^ (i % 8)) ++ List.replicate 4 0) =
        zipXor (R.take 14) (oneHot 14 (i / 8) (2 ^ (i % 8))) ++
          zipXor [0, 0, 0, 0] (List.replicate 4 0) :=
      List.zipWith_append _ _ _ _ _ (by rw [hlen14, oneHot_length])
    have hassemble : (R.set (i / 8) (R.getD (i / 8) 0 ^^^ 2 ^ (i % 8))).take 14 ++
        [0, 0, 0, 0] = zipXor raw0 (oneHot 18 (i / 8) (2 ^ (i % 8))) := by
      rw [htk, hzip, ← hz4, ← happ, htake, ← hone]
    have hsynd_lt : crc32Aux 0 (oneHot 18 (i / 8) (2 ^ (i % 8))) < 4294967296 :=
      crc32Aux_lt _ 0 (by norm_num) (oneHot_mem_lt 18 (i / 8) (2 ^ (i % 8)) hv256)
    have hxor_lt : crc32 raw0 ^^^ crc32Aux 0 (oneHot 18 (i / 8) (2 ^ (i % 8))) <
        4294967296 := by
      have h32 : (4294967296 : Nat) = 2 ^ 32 := by norm_num
      rw [h32] at hcrc_lt hsynd_lt ⊢
      exact Nat.xor_lt_two_pow hcrc_lt hsynd_lt
    have hcrc2 : crc32 ((R.set (i / 8) (R.getD (i / 8) 0 ^^^ 2 ^ (i % 8))).take 14 ++
        [0, 0, 0, 0]) = crc32 raw0 ^^^ crc32Aux 0 (oneHot 18 (i / 8) (2 ^ (i % 8))) := by
      rw [hassemble]
      exact crc32_zipXor raw0 _ (by rw [hraw_len, oneHot_length])
    split
    next hcond =>
      exfalso
      rw [g14, g15, g16, g17, hg14, hg15, hg16, hg17, hcs4, hcrc2, and_mask_eq_mod,
        Nat.mod_eq_of_lt hxor_lt, hcs_eq] at hcond
      have h2 := Nat.xor_cancel_left (crc32 raw0)
        (crc32Aux 0 (oneHot 18 (i / 8) (2 ^ (i % 8))))
      rw [← hcond, Nat.xor_self] at h2
      exact syndrome_ne_zero (i / 8) hk18 (i % 8) hj8 h2.symm
    next => rfl
  · -- bit flip inside the checksum field: the recomputed CRC is untouched
    -- while the transmitted checksum changes
    have htk := take_set_of_ge R (i / 8) 14 (R.getD (i / 8) 0 ^^^ 2 ^ (i % 8)) hkge
    have hcrc3 : crc32 ((R.set (i / 8) (R.getD (i / 8) 0 ^^^ 2 ^ (i % 8))).take 14 ++
        [0, 0, 0, 0]) &&& 0xFFFFFFFF = cs := by
      rw [htk, htake, and_mask_eq_mod, Nat.mod_eq_of_lt hcrc_lt, ← hcs_eq]
    have hflip := fromLE4_flip_ne (cs % 256) (cs / 256 % 256) (cs / 65536 % 256)
      (cs / 16777216 % 256) (2 ^ (i % 8)) hv_pos
    obtain ⟨k, hkk⟩ : ∃ k, i / 8 = k := ⟨i / 8, rfl⟩
    rw [hkk] at hkge hk18 hcrc3 ⊢
    interval_cases k
    · split
      next hcond =>
        exfalso
        rw [hcrc3, getD_set_self R 14 (R.getD 14 0 ^^^ 2 ^ (i % 8)) (by rw [hlen]; omega),
          getD_set_ne R 14 15 (R.getD 14 0 ^^^ 2 ^ (i % 8)) (by omega),
          getD_set_ne R 14 16 (R.getD 14 0 ^^^ 2 ^ (i % 8)) (by omega),
          getD_set_ne R 14 17 (R.getD 14 0 ^^^ 2 ^ (i % 8)) (by omega),
          hg14, hg15, hg16, hg17] at hcond
        exact hflip.1 (hcond.trans hcs4.symm)
      next => rfl
    · split
      next hcond =>
        exfalso
        rw [hcrc3, getD_set_ne R 15 14 (R.getD 15 0 ^^^ 2 ^ (i % 8)) (by omega),
          getD_set_self R 15 (R.getD 15 0 ^^^ 2 ^ (i % 8)) (by rw [hlen]; omega),
          getD_set_ne R 15 16 (R.getD 15 0 ^^^ 2 ^ (i % 8)) (by omega),
          getD_set_ne R 15 17 (R.getD 15 0 ^^^ 2 ^ (i % 8)) (by omega),
          hg14, hg15, hg16, hg17] at hcond
        exact hflip.2.1 (hcond.trans hcs4.symm)
      next => rfl
    · split
      next hcond =>
        exfalso
        rw [hcrc3, getD_set_ne R 16 14 (R.getD 16 0 ^^^ 2 ^ (i % 8)) (by omega),
          getD_set_ne R 16 15 (R.getD 16 0 ^^^ 2 ^ (i % 8)) (by omega),
          getD_set_self R 16 (R.getD 16 0 ^^^ 2 ^ (i % 8)) (by rw [hlen]; omega),
          getD_set_ne R 16 17 (R.getD 16 0 ^^^ 2 ^ (i % 8)) (by omega),
          hg14, hg15, hg16, hg17] at hcond
        exact hflip.2.2.1 (hcond.trans hcs4.symm)
      next => rfl
    · split
      next hcond =>
        exfalso
        rw [hcrc3, getD_set_ne R 17 14 (R.getD 17 0 ^^^ 2 ^ (i % 8)) (by omega),
          getD_set_ne R 17 15 (R.getD 17 0 ^^^ 2 ^ (i % 8)) (by omega),
          getD_set_ne R 17 16 (R.getD 17 0 ^^^ 2 ^ (i % 8)) (by omega),
          getD_set_self R 17 (R.getD 17 0 ^^^ 2 ^ (i % 8)) (by rw [hlen]; omega),
          hg14, hg15, hg16, hg17] at hcond
        exact hflip.2.2.2 (hcond.trans hcs4.symm)
      next => rfl

/-- C4.  Single-bit-error detection: for every record produced by
`__packMessage` and every bit position `i < 144` in its 18 bytes, flipping
that one bit makes `__unpackMessage` deterministically report a checksum
mismatch (the recomputed CRC-32 disagrees with the transmitted checksum). -/
theorem c4_single_bit_error_detection
    (lastMessageID module commandType data acknowledgeID i : Nat) (hi : i < 144) :
    unpackMessage (flipBitInRecord
      (packMessage lastMessageID module commandType data acknowledgeID).2 i) =
      QueueItem.invalidChecksum := by
  show unpackMessage (flipBitInRecord
    (packMessageBytes (lastMessageID + 1) acknowledgeID module commandType data
      (crc32 (packMessageBytes (lastMessageID + 1) acknowledgeID module commandType data 0)
        &&& 0xFFFFFFFF)) i) = QueueItem.invalidChecksum
  exact flip_detected (lastMessageID + 1) acknowledgeID module commandType data i hi _ rfl

set_option maxRecDepth 10000 in
/-- Witness for C4: flipping bit 0 of the concrete record for module 0x32,
commandType 0x64, data 255, acknowledgeID 0 is detected. -/
theorem c4_single_bit_error_detection_witness :
    (0 : Nat) < 144 ∧
      unpackMessage (flipBitInRecord (packMessage 0 0x32 0x64 255 0).2 0) =
        QueueItem.invalidChecksum :=
  ⟨by decide, c4_single_bit_error_detection 0 0x32 0x64 255 0 0 (by decide)⟩
